import Mathlib

/-!
Verification of the AUPP web-scraper core (`main.py`).

The Python source is shallowly embedded: pure helper functions become Lean
functions on `String` / `List Char`, the statistical language detector
(`langdetect.detect`, whose seed is pinned by `DetectorFactory.seed = 0`)
becomes an explicit function parameter `Detector := String → Option String`
(`none` models the detector raising an exception), parsed HTML
(`BeautifulSoup`) becomes an inductive `Node` tree, and the network becomes a
function from URL to a fetch outcome.
-/

namespace Scraper

/-- Whitespace for Python `str.strip()` and the `\s` class of
`whitespace_pattern`.  (Python also strips some non-ASCII Unicode spaces;
every string in this development uses only these.) -/
def pyIsSpace (c : Char) : Bool :=
  c = ' ' || c = '\t' || c = '\n' || c = '\r' || c = Char.ofNat 11 || c = Char.ofNat 12

/-- The dash family of `dash_pattern = (?<=\d)[–—―−-](?=\d)`:
en dash, em dash, horizontal bar, minus sign, hyphen. -/
def isDashChar (c : Char) : Bool :=
  c = Char.ofNat 0x2013 || c = Char.ofNat 0x2014 || c = Char.ofNat 0x2015 ||
  c = Char.ofNat 0x2212 || c = '-'

/-- Decimal digit for the `\d` class of `dash_pattern`.  (Python `\d` also
matches non-ASCII decimal digits; the strings in this development use only
ASCII digits.) -/
def pyIsDigit (c : Char) : Bool := c.isDigit

/-- Python `str.strip()` on a character list. -/
def pyStripList (l : List Char) : List Char :=
  ((l.dropWhile pyIsSpace).reverse.dropWhile pyIsSpace).reverse

/-- Python `str.strip()`. -/
def pyStrip (s : String) : String := String.mk (pyStripList s.data)

/-- Model of `whitespace_pattern.sub(" ", text)`: every maximal run of whitespace
becomes one space.  The flag records whether the previous character was
part of a whitespace run already emitted. -/
def collapseWsGo : Bool → List Char → List Char
  | _, [] => []
  | prevWs, c :: rest =>
    if pyIsSpace c then
      if prevWs then collapseWsGo true rest
      else ' ' :: collapseWsGo true rest
    else c :: collapseWsGo false rest

def collapseWs (l : List Char) : List Char := collapseWsGo false l

/-- Model of `dash_pattern.sub("", text)`: drop a dash-family character exactly when
the original character before it and the original character after it are
both digits (the regex uses zero-width look-around, so matching is purely
positional in the input string). -/
def dashSubGo : Option Char → List Char → List Char
  | _, [] => []
  | prev, c :: rest =>
    if isDashChar c
        && (match prev with | some p => pyIsDigit p | none => false)
        && (match rest.head? with | some n => pyIsDigit n | none => false) then
      dashSubGo (some c) rest
    else
      c :: dashSubGo (some c) rest

def dashSub (l : List Char) : List Char := dashSubGo none l

/-- Model of `dot_pattern.sub("", text)` with `dot_pattern = \.{2,}`: a run of two or
more periods disappears, a lone period stays.  `pending` counts the dots of
the run currently being read. -/
def dotFlush (pending : Nat) : List Char :=
  if pending = 1 then ['.'] else []

def dotSubGo (pending : Nat) : List Char → List Char
  | [] => dotFlush pending
  | c :: rest =>
    if c = '.' then dotSubGo (pending + 1) rest
    else dotFlush pending ++ c :: dotSubGo 0 rest

def dotSub (l : List Char) : List Char := dotSubGo 0 l

/-- Model of `WebScraper.clean_text`: strip, collapse whitespace, remove
digit-adjacent dashes, remove dot runs, strip again.  Empty input returns
the empty string. -/
def clean_text (text : String) : String :=
  if text = "" then ""
  else String.mk (pyStripList (dotSub (dashSub (collapseWs (pyStripList text.data)))))

/-- Number of characters of `text` in the Khmer Unicode block
U+1780–U+17FF. -/
def khmerCharCount (text : String) : Nat :=
  (text.data.filter fun c => 0x1780 ≤ c.toNat && c.toNat ≤ 0x17FF).length

/-- Model of `WebScraper.is_mostly_khmer` with its default arguments
`char_ratio = 0.4`, `min_khmer_chars = 10`.  The float comparison
`khmer_chars / total_chars >= 0.4` is modelled by the exact rational
comparison `5 * khmer_chars ≥ 2 * total_chars`. -/
def is_mostly_khmer (text : String) : Bool :=
  let khmer_chars := khmerCharCount text
  let total_chars := text.length
  if total_chars = 0 then false
  else khmer_chars ≥ 10 && 5 * khmer_chars ≥ 2 * total_chars

/-- The statistical detector `langdetect.detect` as an oracle: `some code`
is a returned language code, `none` models a raised `LangDetectException`.
`DetectorFactory.seed = 0` makes the real detector a function of its input,
which is what a Lean function is by construction. -/
def Detector : Type := String → Option String

/-- Per-page accumulation dictionary: the `english_text` / `khmer_text`
lists of `extract_content`. -/
structure Content where
  english_text : List String
  khmer_text : List String
deriving Repr, DecidableEq

/-- Model of `WebScraper._process_text_block`: skip short or empty raw text, clean
it, take the Khmer fast path when `is_mostly_khmer`, otherwise consult the
detector, coercing any code other than "en"/"km" to "en" and a detector
exception to "unknown"; append to the matching bucket, dropping
"unknown". -/
def _process_text_block (d : Detector) (raw_text : String) (content : Content) : Content :=
  if raw_text = "" || raw_text.length ≤ 5 then content
  else
    let cleaned_text := clean_text raw_text
    if cleaned_text = "" then content
    else
      let lang :=
        if is_mostly_khmer cleaned_text then "km"
        else
          match d cleaned_text with
          | some l => if l = "en" || l = "km" then l else "en"
          | none => "unknown"
      if lang = "en" then
        { content with english_text := content.english_text ++ [cleaned_text] }
      else if lang = "km" then
        { content with khmer_text := content.khmer_text ++ [cleaned_text] }
      else content

/-- The decision `_process_text_block` takes for one raw block: which
bucket receives which cleaned string, or no bucket at all. -/
inductive BlockDecision where
  | english (cleaned : String)
  | khmer (cleaned : String)
  | dropped
deriving Repr, DecidableEq

/-- The classification step of `_process_text_block` as a function of the
detector and the raw block alone, independent of the accumulated state. -/
def classifyStep (d : Detector) (raw_text : String) : BlockDecision :=
  if raw_text = "" || raw_text.length ≤ 5 then .dropped
  else
    let cleaned_text := clean_text raw_text
    if cleaned_text = "" then .dropped
    else
      let lang :=
        if is_mostly_khmer cleaned_text then "km"
        else
          match d cleaned_text with
          | some l => if l = "en" || l = "km" then l else "en"
          | none => "unknown"
      if lang = "en" then .english cleaned_text
      else if lang = "km" then .khmer cleaned_text
      else .dropped

/-- Apply a classification decision to the per-page accumulator. -/
def applyDecision (dec : BlockDecision) (content : Content) : Content :=
  match dec with
  | .english t => { content with english_text := content.english_text ++ [t] }
  | .khmer t => { content with khmer_text := content.khmer_text ++ [t] }
  | .dropped => content

/-! ## Parsed markup (BeautifulSoup) -/

/-- A parsed HTML tree: an element with tag name, attributes and children,
or a text node.  The whole parsed document (`BeautifulSoup(html)`) is
modelled as an element with the BeautifulSoup document name. -/
inductive Node where
  | elem (tag : String) (attrs : List (String × String)) (children : List Node)
  | text (s : String)
deriving Repr

/-- Tag name of an element, the document name for text nodes (never matched
by any tag predicate below). -/
def Node.tagName : Node → String
  | .elem t _ _ => t
  | .text _ => "[document]"

/-- The descendant strings of a node, in document order. -/
def textFragments : Node → List String
  | .text s => [s]
  | .elem _ _ cs => textFragmentsList cs
where
  textFragmentsList : List Node → List String
  | [] => []
  | n :: ns => textFragments n ++ textFragmentsList ns

/-- BeautifulSoup `get_text()` with no arguments: raw concatenation of all
descendant strings. -/
def getTextRaw (n : Node) : String := String.join (textFragments n)

/-- BeautifulSoup `get_text(separator=sep, strip=True)`: each descendant
string is stripped, empty results are skipped, the rest are joined with the
separator. -/
def getTextStripSep (sep : String) (n : Node) : String :=
  String.intercalate sep (((textFragments n).map pyStrip).filter (· ≠ ""))

/-- Model of `get_text(separator=' ', strip=True)`, as used for text blocks. -/
def getTextWs (n : Node) : String := getTextStripSep " " n

/-- Model of `get_text(strip=True)`, as used for titles, headers and cells. -/
def getTextStrip (n : Node) : String := getTextStripSep "" n

/-- A node together with its matching descendants, in document
(pre-)order; the list version handles a forest of siblings. -/
def findAllFrom (tags : List String) : Node → List Node
  | .text _ => []
  | .elem t a cs =>
    (if tags.contains t then [Node.elem t a cs] else []) ++ findAllFromList cs
where
  findAllFromList : List Node → List Node
  | [] => []
  | n :: ns => findAllFrom tags n ++ findAllFromList ns

/-- Model of `node.find_all(tags)`: matching descendant elements of `n` (`n` itself
excluded, as in BeautifulSoup), in document order. -/
def findAll (tags : List String) : Node → List Node
  | .text _ => []
  | .elem _ _ cs => findAllFrom.findAllFromList tags cs

/-- First element of the subtree rooted at a node satisfying `p` (the root
included), pre-order; text nodes are skipped, as BeautifulSoup matches
tag/class filters against elements only. -/
def findFirstFrom (p : Node → Bool) : Node → Option Node
  | .text _ => none
  | .elem t a cs =>
    if p (.elem t a cs) then some (.elem t a cs) else findFirstFromList cs
where
  findFirstFromList : List Node → Option Node
  | [] => none
  | n :: ns =>
    match findFirstFrom p n with
    | some r => some r
    | none => findFirstFromList ns

/-- Model of `node.find(predicate)`: first matching descendant in document order. -/
def findFirst (p : Node → Bool) : Node → Option Node
  | .text _ => none
  | .elem _ _ cs => findFirstFrom.findFirstFromList p cs

/-- Value of an attribute on an element. -/
def Node.attr : Node → String → Option String
  | .elem _ attrs _, key => (attrs.find? (fun kv => kv.1 = key)).map (·.2)
  | .text _, _ => none

/-- Python whitespace-splitting of a `class` attribute value into class
tokens. -/
def classTokens (v : String) : List String :=
  (v.split (fun c => pyIsSpace c)).filter (· ≠ "")

/-- BeautifulSoup `class_=cls` matching: `cls` is one of the element's
class tokens. -/
def hasClass (cls : String) (n : Node) : Bool :=
  match n.attr "class" with
  | some v => (classTokens v).contains cls
  | none => false

/-- Decomposition of every `header` element
(`for unwanted in soup.find_all(['header']): unwanted.decompose()`):
each header element disappears with its whole subtree. -/
def removeHeadersNode : Node → Node
  | .text s => .text s
  | .elem t a cs => .elem t a (removeHeadersList cs)
where
  removeHeadersList : List Node → List Node
  | [] => []
  | n :: ns =>
    (if n.tagName = "header" then [] else [removeHeadersNode n]) ++ removeHeadersList ns

/-- The footer marker matched by
`soup.find("div", attrs={"data-elementor-type": "footer"})`. -/
def isFooterDiv (n : Node) : Bool :=
  n.tagName = "div" &&
    match n.attr "data-elementor-type" with
    | some v => v = "footer"
    | none => false

/-- Decomposition of the first footer `div` in document order: returns the
tree with that subtree removed and whether one was found (recursion stops
at the first match, as `find` returns only one element). -/
def removeFooterInside : Node → (Node × Bool)
  | .text s => (.text s, false)
  | .elem t a cs =>
    let r := removeFooterInList cs
    (.elem t a r.1, r.2)
where
  removeFooterInList : List Node → (List Node × Bool)
  | [] => ([], false)
  | n :: ns =>
    if isFooterDiv n then (ns, true)
    else
      let r := removeFooterInside n
      if r.2 then (r.1 :: ns, true)
      else
        let rs := removeFooterInList ns
        (r.1 :: rs.1, rs.2)

/-- Model of `WebScraper.extract_post_info_paragraph`: build
"Published on date in category" from the first `elementor-post-info`
container, either half omitted when its element is absent. -/
def extract_post_info_paragraph (soup : Node) : String :=
  match findFirst (hasClass "elementor-post-info") soup with
  | none => ""
  | some container =>
    let publish_date :=
      match findFirst (fun n => n.tagName = "time") container with
      | some t => getTextStrip t
      | none => ""
    let category :=
      match findFirst
          (fun n => n.tagName = "span" && hasClass "elementor-post-info__terms-list-item" n)
          container with
      | some s => getTextStrip s
      | none => ""
    let result := (if publish_date ≠ "" then "Published on " ++ publish_date else "")
    let result := result ++ (if category ≠ "" then " in " ++ category else "")
    pyStrip result

/-- Body of the `extract_text_by_tags` loop for one found element: a `td`
holding nested `tr` elements contributes each nested row's flattened text
instead of its own text; every other element (including `th`) contributes
its own flattened text. -/
def elementStep (d : Detector) (content : Content) (e : Node) : Content :=
  if e.tagName = "td" then
    let nested_trs := findAll ["tr"] e
    if nested_trs.isEmpty then _process_text_block d (getTextWs e) content
    else nested_trs.foldl (fun c tr => _process_text_block d (getTextWs tr) c) content
  else _process_text_block d (getTextWs e) content

/-- Model of `WebScraper.extract_text_by_tags`: process every element with a tag in
`tags`, in document order, threading the per-page accumulator. -/
def extract_text_by_tags (d : Detector) (soup : Node) (tags : List String)
    (content : Content) : Content :=
  (findAll tags soup).foldl (elementStep d) content

/-- Model of `WebScraper.extract_content`: drop `header` elements and the footer
`div`, classify the post-info fragment (a detector exception leaves it
unstored), then walk headings, paragraphs, list items and table cells. -/
def extract_content (d : Detector) (soup : Node) : Content :=
  let soup := removeHeadersNode soup
  let soup := (removeFooterInside soup).1
  let content : Content := ⟨[], []⟩
  let post_info_text := extract_post_info_paragraph soup
  let content :=
    if post_info_text ≠ "" then
      match d post_info_text with
      | some lang =>
        if lang = "en" && !(content.english_text.contains post_info_text) then
          { content with english_text := content.english_text ++ [post_info_text] }
        else if lang = "km" && !(content.khmer_text.contains post_info_text) then
          { content with khmer_text := content.khmer_text ++ [post_info_text] }
        else content
      | none => content
    else content
  let content := extract_text_by_tags d soup ["h1", "h2", "h3", "h4", "h5", "h6"] content
  let content := extract_text_by_tags d soup ["p"] content
  let content := extract_text_by_tags d soup ["li"] content
  extract_text_by_tags d soup ["th", "td"] content

/-! ## Table extraction (`extract_tables_to_dataframes`) -/

/-- The subtree's elements in document (pre-)order, root element
included. -/
def descElemsFrom : Node → List Node
  | .text _ => []
  | .elem t a cs => .elem t a cs :: descElemsFromList cs
where
  descElemsFromList : List Node → List Node
  | [] => []
  | n :: ns => descElemsFrom n ++ descElemsFromList ns

/-- All descendant elements of the document root in document order: the
universe that BeautifulSoup iterates for `find_previous` (ancestors of a
tag precede it in this order, as they do in `previous_elements`). -/
def descElems : Node → List Node
  | .text _ => []
  | .elem _ _ cs => descElemsFrom.descElemsFromList cs

/-- Python `needle in hay` on strings. -/
def listContainsSub (needle : List Char) : List Char → Bool
  | [] => needle.isEmpty
  | c :: rest => List.isPrefixOf needle (c :: rest) || listContainsSub needle rest

def strContainsSub (needle hay : String) : Bool :=
  listContainsSub needle.data hay.data

/-- The title predicate of `extract_tables_to_dataframes`:
`tag.name in ["h1","h2","h3","div","button","span"] and
("Required" in tag.get_text() or "Courses" in tag.get_text())`. -/
def titlePred (n : Node) : Bool :=
  ["h1", "h2", "h3", "div", "button", "span"].contains n.tagName &&
    (strContainsSub "Required" (getTextRaw n) || strContainsSub "Courses" (getTextRaw n))

/-- A pandas DataFrame holding table cells; `none` cells are the `NaN`
padding pandas inserts for short rows. -/
structure DataFrame where
  columns : List String
  rows : List (List (Option String))
deriving Repr, DecidableEq

/-- Model of `pd.DataFrame(rows, columns=headers)` on a list of lists: pandas pads
every row with `NaN` to the width of the widest row and raises `ValueError`
when `columns` does not have exactly that many entries. -/
def mkDataFrame (rows : List (List String)) (columns : List String) : Except String DataFrame :=
  let width := (rows.map List.length).foldl max 0
  if columns.length ≠ width then .error "ValueError: columns mismatch"
  else .ok ⟨columns, rows.map fun r => r.map some ++ List.replicate (width - r.length) none⟩

/-- One extracted table: `{'title': ..., 'detail': ..., 'data': DataFrame}`.
`title` is an `Option` because the first-table fix-up moves the optional
`detail` into it. -/
structure TableRecord where
  title : Option String
  detail : Option String
  data : DataFrame
deriving Repr, DecidableEq

/-- The per-table loop of `extract_tables_to_dataframes`.  `allPre` is the
document's element list with positions, `idx` the running `enumerate`
index, and the remaining tables carry their document positions.  A
`ValueError` from `pd.DataFrame` aborts the whole extraction. -/
def buildTablesGo (allPre : List (Nat × Node)) (idx : Nat) :
    List (Nat × Node) → Except String (List TableRecord)
  | [] => .ok []
  | (pos, table) :: rest =>
    let prevs := (allPre.take pos).reverse
    let title_entry := prevs.find? fun q => titlePred q.2
    let title : String :=
      match title_entry with
      | some q => getTextStrip q.2
      | none => "Table " ++ toString (idx + 1)
    let detail_entry := prevs.find? fun q =>
      ["p", "small", "h4", "h5", "h6"].contains q.2.tagName &&
        some q.1 ≠ title_entry.map (fun e => e.1)
    let detail : Option String := detail_entry.map fun q => getTextStrip q.2
    let headers := (findAll ["th"] table).map getTextStrip
    let rows := (findAll ["tr"] table).filterMap fun tr =>
      let cells := (findAll ["td"] tr).map getTextStrip
      if cells.isEmpty then none else some cells
    let headers :=
      if headers.isEmpty && !rows.isEmpty then
        (List.range ((rows.map List.length).foldl max 0)).map
          fun i => "Column " ++ toString (i + 1)
      else headers
    if rows.isEmpty then buildTablesGo allPre (idx + 1) rest
    else
      match mkDataFrame rows headers with
      | .error e => .error e
      | .ok df =>
        match buildTablesGo allPre (idx + 1) rest with
        | .error e => .error e
        | .ok l => .ok (⟨some title, detail, df⟩ :: l)

/-- Model of `WebScraper.extract_tables_to_dataframes`, including the first-table
fix-up that swaps title and detail and installs the document's first
paragraph as the new detail. -/
def extract_tables_to_dataframes (soup : Node) : Except String (List TableRecord) :=
  let allPre := (descElems soup).enum
  let tablesPos := allPre.filter fun p => p.2.tagName = "table"
  let first_p_text :=
    match findFirst (fun n => n.tagName = "p") soup with
    | some p => getTextStrip p
    | none => ""
  match buildTablesGo allPre 0 tablesPos with
  | .error e => .error e
  | .ok [] => .ok []
  | .ok (t0 :: ts) => .ok ({ t0 with title := t0.detail, detail := some first_p_text } :: ts)

/-! ## Fetch orchestration (`scrape_url`, `scrape_multiple_urls`) -/

/-- Scheme characters accepted by `urllib.parse` after the leading
letter. -/
def isSchemeChar (c : Char) : Bool :=
  c.isAlphanum || c = '+' || c = '-' || c = '.'

/-- Model of `urlparse(url).scheme`: the part before the first ':' when it is a
well-formed scheme, otherwise empty. -/
def urlScheme (url : String) : String :=
  let pre := url.data.takeWhile (· ≠ ':')
  if pre.length < url.data.length && !pre.isEmpty &&
      (match pre.head? with | some c => c.isAlpha | none => false) &&
      pre.all isSchemeChar then
    String.mk pre
  else ""

/-- Model of `urlparse(url).netloc`: after the scheme, a leading `//` introduces the
network location, running to the next `/`, `?` or `#`. -/
def urlNetloc (url : String) : String :=
  let rest :=
    if urlScheme url ≠ "" then url.data.drop ((urlScheme url).length + 1)
    else url.data
  match rest with
  | '/' :: '/' :: tail =>
    String.mk (tail.takeWhile fun c => c ≠ '/' && c ≠ '?' && c ≠ '#')
  | _ => ""

/-- Model of `WebScraper.validate_url`: scheme and netloc must both be present; the
`aupp.edu.kh` allowlist check only logs a warning and rejects nothing. -/
def validate_url (url : String) : Bool :=
  urlScheme url ≠ "" && urlNetloc url ≠ ""

/-- Outcome of `client.get(url)`: a completed response with status code
and parsed body, a `httpx.TimeoutException`, or any other transport
exception. -/
inductive FetchOutcome where
  | response (status_code : Nat) (soup : Node)
  | timeout
  | transportError

/-- A scraped page dictionary: extracted content plus the `url` and
`status` keys added by `scrape_url`. -/
structure Page where
  url : String
  status : String
  english_text : List String
  khmer_text : List String
deriving Repr, DecidableEq

/-- Model of `WebScraper.scrape_url`: `None` for an invalid URL, a non-200
response, a timeout or any other error; otherwise the extracted content
tagged with the URL and `'success'`.  A `ValueError` raised while building
a table DataFrame, and the `TypeError` from `safe_filename(None)` when the
first table's post-swap title is `None`, are swallowed by the
`except Exception` handler and also yield `None`.  The pacing sleep and
the image rendering have no effect on the returned value. -/
def scrape_url (d : Detector) (fetch : String → FetchOutcome) (url : String) : Option Page :=
  if !validate_url url then none
  else
    match fetch url with
    | .timeout => none
    | .transportError => none
    | .response status_code soup =>
      if status_code ≠ 200 then none
      else
        let content := extract_content d soup
        match extract_tables_to_dataframes soup with
        | .error _ => none
        | .ok [] => some ⟨url, "success", content.english_text, content.khmer_text⟩
        | .ok (t0 :: _) =>
          match t0.title with
          | none => none
          | some _ => some ⟨url, "success", content.english_text, content.khmer_text⟩

/-- Model of `WebScraper.scrape_multiple_urls`: one task per URL (`asyncio.gather`
keeps task order), `None` results filtered out.  The semaphore and the
connection limits bound concurrency but do not change the value
returned. -/
def scrape_multiple_urls (d : Detector) (fetch : String → FetchOutcome)
    (urls : List String) : List Page :=
  (urls.map (scrape_url d fetch)).filterMap id

/-! ## Global deduplication (`remove_global_duplicates`) -/

/-- The inner loop of `remove_global_duplicates` for one page's text list:
keep each text not yet in the global seen set, adding kept texts to it;
returns the kept texts and the grown seen set. -/
def dedupTexts (seen : List String) : List String → List String × List String
  | [] => ([], seen)
  | t :: ts =>
    if t ∈ seen then dedupTexts seen ts
    else
      let r := dedupTexts (t :: seen) ts
      (t :: r.1, r.2)

/-- The page loop of `remove_global_duplicates`: pages whose kept lists are
both empty are dropped, the others are rebuilt from their `url`, `status`
and kept text lists. -/
def removeGlobalDuplicatesGo (seenEn seenKm : List String) : List Page → List Page
  | [] => []
  | item :: rest =>
    let en := dedupTexts seenEn item.english_text
    let km := dedupTexts seenKm item.khmer_text
    if !en.1.isEmpty || !km.1.isEmpty then
      ⟨item.url, item.status, en.1, km.1⟩ :: removeGlobalDuplicatesGo en.2 km.2 rest
    else removeGlobalDuplicatesGo en.2 km.2 rest

/-- Model of `remove_global_duplicates`: global deduplication across the whole run,
starting from empty English and Khmer seen sets. -/
def remove_global_duplicates (results : List Page) : List Page :=
  removeGlobalDuplicatesGo [] [] results

/-! ## CSV flattening (`save_to_csv`) -/

/-- One row written by `csv.DictWriter` in `save_to_csv`. -/
structure CsvRow where
  id : Nat
  english : String
  khmer : String
deriving Repr, DecidableEq

/-- One of the two inner loops of `save_to_csv`: emit one row per text,
incrementing `row_id`, filling only the English or only the Khmer
column. -/
def emitTexts (asEnglish : Bool) (row_id : Nat) : List String → List CsvRow
  | [] => []
  | t :: ts =>
    (if asEnglish then CsvRow.mk row_id t "" else CsvRow.mk row_id "" t)
      :: emitTexts asEnglish (row_id + 1) ts

/-- The row-writing loop of `save_to_csv`: per page, all English rows then
all Khmer rows, with `row_id` threaded across pages. -/
def csvRowsGo (row_id : Nat) : List Page → List CsvRow
  | [] => []
  | item :: rest =>
    emitTexts true row_id item.english_text
      ++ emitTexts false (row_id + item.english_text.length) item.khmer_text
      ++ csvRowsGo (row_id + item.english_text.length + item.khmer_text.length) rest

/-- The rows `save_to_csv` writes below the header, `row_id` starting
at 1.  (Directory creation, the timestamped filename and the file handle
are I/O only.) -/
def save_to_csv_rows (data : List Page) : List CsvRow :=
  csvRowsGo 1 data

/-! ## Specification-side definitions and concrete instances -/

/-- Every character of a list together with its original neighbours:
`(previous, current, next)`, the boundary neighbour being `prev` for the
first element.  Used to state the positional reading of the dash rule. -/
def neighborTriples : Option Char → List Char → List (Option Char × Char × Option Char)
  | _, [] => []
  | p, c :: rest => (p, c, rest.head?) :: neighborTriples (some c) rest

def optIsDigit : Option Char → Bool
  | some c => pyIsDigit c
  | none => false

/-- The spec's wording of the dash rule, as a positional filter: a
character is removed exactly when it is a dash-family character sitting
strictly between two digits of the input. -/
def dashSubSpec (prev : Option Char) (l : List Char) : List Char :=
  ((neighborTriples prev l).filter fun q => !(isDashChar q.2.1 && optIsDigit q.1 && optIsDigit q.2.2)).map
    fun q => q.2.1

/-- All English texts of a page list, in emission order. -/
def allEnglish (pages : List Page) : List String :=
  (pages.map Page.english_text).flatten

/-- All Khmer texts of a page list, in emission order. -/
def allKhmer (pages : List Page) : List String :=
  (pages.map Page.khmer_text).flatten

/-- A detector that always answers English; adversarial for the Khmer
fast path. -/
def alwaysEnglish : Detector := fun _ => some "en"

/-- A detector that always raises (`LangDetectException` on every
input). -/
def alwaysRaises : Detector := fun _ => none

/-- A detector that always answers an unexpected code. -/
def alwaysFrench : Detector := fun _ => some "fr"

/-- Ten Khmer letters: a clearly-Khmer block for the fast-path witness. -/
def khmerDemo : String := "កខគឃងចឆជឈញ"

/-- Children of a `td` cell that embeds a sub-table next to its own
text. -/
def tdChildren : List Node :=
  [.text "Outer text here",
   .elem "table" [] [.elem "tr" [] [.elem "td" [] [.text "Inner cell text"]]]]

/-- A `th` cell with the same embedded sub-table: the source gives it no
nested-row handling. -/
def demoThNested : Node := .elem "th" [] tdChildren

/-- A document whose only cells are `demoThNested` and the sub-table cell
inside it. -/
def soupC7 : Node :=
  .elem "[document]" [] [.elem "table" [] [.elem "tr" [] [demoThNested]]]

/-- A table with one header cell and a two-cell data row: headers and the
widest row disagree, so `pd.DataFrame` raises. -/
def soupC8 : Node :=
  .elem "[document]" []
    [.elem "table" []
      [.elem "tr" [] [.elem "th" [] [.text "A"]],
       .elem "tr" [] [.elem "td" [] [.text "1"], .elem "td" [] [.text "2"]]]]

/-- A well-formed document: a paragraph followed by a 2-column course
table. -/
def soupT : Node :=
  .elem "[document]" []
    [.elem "p" [] [.text "First paragraph."],
     .elem "table" []
      [.elem "tr" [] [.elem "th" [] [.text "Course"], .elem "th" [] [.text "Credits"]],
       .elem "tr" [] [.elem "td" [] [.text "Math101"], .elem "td" [] [.text "3"]],
       .elem "tr" [] [.elem "td" [] [.text "Eng101"], .elem "td" [] [.text "3"]]]]

/-- The record `extract_tables_to_dataframes` produces for `soupT`. -/
def recT : TableRecord :=
  ⟨some "First paragraph.", some "First paragraph.",
   ⟨["Course", "Credits"], [[some "Math101", some "3"], [some "Eng101", some "3"]]⟩⟩

/-- A fetch oracle that answers HTTP 404 everywhere. -/
def fetch404 : String → FetchOutcome := fun _ => .response 404 (.elem "[document]" [] [])

/-- Three pages with overlapping texts, for the deduplication
witnesses. -/
def demoPages : List Page :=
  [⟨"u1", "success", ["apple pie", "banana cake"], ["ករណី"]⟩,
   ⟨"u2", "success", ["banana cake", "cherry tart"], []⟩,
   ⟨"u3", "success", ["apple pie"], ["ករណី"]⟩]

/-- The second output page of `remove_global_duplicates demoPages`. -/
def demoOutPage : Page := ⟨"u2", "success", ["cherry tart"], []⟩

/-! ## Helper lemmas -/

lemma khmerCharCount_le_length (s : String) : khmerCharCount s ≤ s.length :=
  List.length_filter_le _ _

/-- The function `_process_text_block` factors through a decision computed from the
detector and the raw block alone. -/
lemma process_eq_decision (d : Detector) (raw : String) (c : Content) :
    _process_text_block d raw c = applyDecision (classifyStep d raw) c := by
  simp only [_process_text_block, classifyStep, applyDecision]
  repeat' first
    | rfl
    | (split <;> try rfl)

/-- The Khmer fast path in `classifyStep`. -/
lemma classifyStep_khmer_fast (d : Detector) (raw : String)
    (hlen : 5 < raw.length)
    (hmin : 10 ≤ khmerCharCount (clean_text raw))
    (hratio : 2 * (clean_text raw).length ≤ 5 * khmerCharCount (clean_text raw)) :
    classifyStep d raw = .khmer (clean_text raw) := by
  have hraw : raw ≠ "" := by
    intro h
    rw [h] at hlen
    exact absurd hlen (by decide)
  have hle : khmerCharCount (clean_text raw) ≤ (clean_text raw).length :=
    khmerCharCount_le_length _
  have hcl : clean_text raw ≠ "" := by
    intro h
    rw [h] at hmin
    exact absurd hmin (by decide)
  have hmk : is_mostly_khmer (clean_text raw) = true := by
    simp only [is_mostly_khmer]
    have hnz : ¬((clean_text raw).length = 0) := by omega
    simp [hnz, hmin, hratio]
  simp only [classifyStep]
  have hc1 : ¬(raw = "" ∨ raw.length ≤ 5) := by
    push_neg
    exact ⟨hraw, by omega⟩
  simp [hc1, hcl, hmk]

/-- The detector branch of `classifyStep` when the fast path does not
apply. -/
lemma classifyStep_detector (d : Detector) (raw : String)
    (hlen : 5 < raw.length)
    (hcl : clean_text raw ≠ "")
    (hnk : is_mostly_khmer (clean_text raw) = false) :
    classifyStep d raw =
      match d (clean_text raw) with
      | some l =>
        if l = "en" || l = "km" then
          (if l = "en" then .english (clean_text raw) else .khmer (clean_text raw))
        else .english (clean_text raw)
      | none => .dropped := by
  have hraw : raw ≠ "" := by
    intro h
    rw [h] at hlen
    exact absurd hlen (by decide)
  have hc1 : ¬(raw = "" ∨ raw.length ≤ 5) := by
    push_neg
    exact ⟨hraw, by omega⟩
  cases hd : d (clean_text raw) with
  | none => simp [classifyStep, hc1, hcl, hnk, hd]
  | some l =>
    by_cases he : l = "en"
    · simp [classifyStep, hc1, hcl, hnk, hd, he]
    · by_cases hk : l = "km" <;> simp [classifyStep, hc1, hcl, hnk, hd, he, hk]

/-! ## Claim theorems -/

/-- C2: for every cleaned block with at least 10 Khmer-range characters
making up at least 40% of its length, `_process_text_block` appends the
block to the page's `khmer_text` list regardless of the detector. -/
theorem C2_khmer_fast_path (d : Detector) (raw : String) (c : Content)
    (hlen : 5 < raw.length)
    (hmin : 10 ≤ khmerCharCount (clean_text raw))
    (hratio : 2 * (clean_text raw).length ≤ 5 * khmerCharCount (clean_text raw)) :
    _process_text_block d raw c
      = { c with khmer_text := c.khmer_text ++ [clean_text raw] } := by
  rw [process_eq_decision, classifyStep_khmer_fast d raw hlen hmin hratio]
  rfl

/-- Witness for C2 at a concrete ten-letter Khmer block, against a
detector that always answers English. -/
theorem C2_khmer_fast_path_witness :
    _process_text_block alwaysEnglish khmerDemo ⟨[], []⟩ = ⟨[], [khmerDemo]⟩ :=
  (C2_khmer_fast_path alwaysEnglish khmerDemo ⟨[], []⟩
    (by decide) (by decide) (by decide)).trans (by decide)

/-- C3 counterexample: "hello world" passes the length gate, is not mostly
Khmer, and the detector raises; the claim says the block is then appended
to `english_text`, but the code stores it nowhere. -/
theorem C3_counterexample :
    5 < ("hello world" : String).length
      ∧ is_mostly_khmer (clean_text "hello world") = false
      ∧ alwaysRaises (clean_text "hello world") = none
      ∧ _process_text_block alwaysRaises "hello world" ⟨[], []⟩ = ⟨[], []⟩ := by
  refine ⟨by decide, by decide, rfl, by decide⟩

/-- C3 amended: when the fast path does not apply, a detector code other
than "en"/"km" is coerced to English, but a detector exception drops the
block entirely (it is appended to neither list). -/
theorem C3_detector_fallback (d : Detector) (raw : String) (c : Content)
    (hlen : 5 < raw.length)
    (hcl : clean_text raw ≠ "")
    (hnk : is_mostly_khmer (clean_text raw) = false) :
    (∀ l, d (clean_text raw) = some l → l ≠ "en" → l ≠ "km" →
        _process_text_block d raw c
          = { c with english_text := c.english_text ++ [clean_text raw] })
      ∧ (d (clean_text raw) = none → _process_text_block d raw c = c) := by
  constructor
  · intro l hd he hk
    rw [process_eq_decision, classifyStep_detector d raw hlen hcl hnk, hd]
    simp [he, hk, applyDecision]
  · intro hd
    rw [process_eq_decision, classifyStep_detector d raw hlen hcl hnk, hd]
    rfl

/-- Witness for C3 amended: a detector answering "fr" sends
"hello world" to the English bucket. -/
theorem C3_detector_fallback_witness :
    _process_text_block alwaysFrench "hello world" ⟨[], []⟩ = ⟨["hello world"], []⟩ :=
  ((C3_detector_fallback alwaysFrench "hello world" ⟨[], []⟩
      (by decide) (by decide) (by decide)).1
    "fr" rfl (by decide) (by decide)).trans (by decide)

/-- C4: classification is deterministic and state-independent — the
decision `_process_text_block` takes for a raw block is a function of the
detector and the block alone, so two invocations on the identical string
make the identical bucket-or-drop decision. -/
theorem C4_classification_deterministic (d : Detector) (raw : String)
    (c₁ c₂ : Content) :
    _process_text_block d raw c₁ = applyDecision (classifyStep d raw) c₁
      ∧ _process_text_block d raw c₂ = applyDecision (classifyStep d raw) c₂ :=
  ⟨process_eq_decision d raw c₁, process_eq_decision d raw c₂⟩

/-- The recursive dash pass agrees with the positional filter reading at
every boundary state. -/
lemma dashSubGo_eq_spec : ∀ (l : List Char) (prev : Option Char),
    dashSubGo prev l = dashSubSpec prev l := by
  intro l
  induction l with
  | nil => intro prev; rfl
  | cons c rest ih =>
    intro prev
    simp only [dashSubGo, dashSubSpec, neighborTriples, List.filter_cons, optIsDigit]
    by_cases h : (isDashChar c
        && (match prev with | some p => pyIsDigit p | none => false)
        && (match rest.head? with | some n => pyIsDigit n | none => false)) = true
    · simp only [h, if_true, Bool.not_true, Bool.false_eq_true, if_false]
      exact ih (some c)
    · simp only [h, if_false, Bool.not_eq_true] at *
      simp only [h, Bool.not_false, if_true, List.map_cons]
      rw [ih (some c)]
      rfl

/-- C6 counterexample: the claim's example "a–1" has a letter before the
dash, so `clean_text` keeps the dash rather than removing it. -/
theorem C6_counterexample :
    clean_text "a–1" = "a–1" ∧ clean_text "a–1" ≠ "a1" := by
  exact ⟨by decide, by decide⟩

/-- C6 amended: the dash pass of `clean_text` removes a dash-family
character exactly when the characters on both sides of it (in the
stripped, whitespace-collapsed string it runs on) are digits, and leaves
every other dash untouched; "1–2" loses its dash, "a–b-c" keeps both, and
"a–1" keeps its dash because a letter precedes it. -/
theorem C6_dash_between_digits :
    (∀ l : List Char, dashSub l = dashSubSpec none l)
      ∧ clean_text "1–2" = "12"
      ∧ clean_text "2020–2021" = "20202021"
      ∧ clean_text "a–b-c" = "a–b-c" :=
  ⟨fun l => dashSubGo_eq_spec l none, by decide, by decide, by decide⟩

/-- C7 counterexample: a `th` cell embedding a sub-table row.  The claim
says each nested row's text is processed as its own block and the outer
cell's own text is never processed; the code, which special-cases only
`td`, processes the outer `th` text ("Outer text here Inner cell text")
as a block. -/
theorem C7_counterexample :
    (findAll ["tr"] demoThNested).isEmpty = false
      ∧ getTextWs demoThNested = "Outer text here Inner cell text"
      ∧ extract_text_by_tags alwaysEnglish soupC7 ["th", "td"] ⟨[], []⟩
          = ⟨["Outer text here Inner cell text", "Inner cell text"], []⟩ :=
  ⟨rfl, by decide, by decide⟩

/-- C7 amended: only `td` receives the nested-row handling — a `td` whose
subtree holds `tr` elements contributes each nested row's flattened text
and skips its own text, while a `th` always contributes its own flattened
text. -/
theorem C7_td_nested_rows (d : Detector) (c : Content)
    (attrs : List (String × String)) (cs : List Node) :
    ((findAll ["tr"] (Node.elem "td" attrs cs)).isEmpty = false →
        elementStep d c (.elem "td" attrs cs)
          = (findAll ["tr"] (.elem "td" attrs cs)).foldl
              (fun acc tr => _process_text_block d (getTextWs tr) acc) c)
      ∧ elementStep d c (.elem "th" attrs cs)
          = _process_text_block d (getTextWs (.elem "th" attrs cs)) c := by
  constructor
  · intro h
    simp [elementStep, Node.tagName, h]
  · simp [elementStep, Node.tagName]

/-- Witness for C7 amended at a concrete `td` embedding a sub-table. -/
theorem C7_td_nested_rows_witness :
    elementStep alwaysEnglish ⟨[], []⟩ (.elem "td" [] tdChildren)
      = ⟨["Inner cell text"], []⟩ :=
  ((C7_td_nested_rows alwaysEnglish ⟨[], []⟩ [] tdChildren).1 rfl).trans (by decide)

/-- C5: a non-200 response, a timeout or any other transport error on a
URL makes `scrape_url` return `None`, and removing such a URL from the
batch leaves the other URLs' results exactly unchanged. -/
theorem C5_per_url_failure_isolated (d : Detector) (fetch : String → FetchOutcome)
    (u : String) (pre post : List String)
    (hfail : fetch u = .timeout ∨ fetch u = .transportError
      ∨ ∃ code soup, fetch u = .response code soup ∧ code ≠ 200) :
    scrape_url d fetch u = none
      ∧ scrape_multiple_urls d fetch (pre ++ u :: post)
          = scrape_multiple_urls d fetch (pre ++ post) := by
  have h1 : scrape_url d fetch u = none := by
    unfold scrape_url
    by_cases hv : validate_url u
    · rcases hfail with h | h | ⟨code, soup, h, hc⟩
      · simp [hv, h]
      · simp [hv, h]
      · simp [hv, h, hc]
    · simp [hv]
  refine ⟨h1, ?_⟩
  unfold scrape_multiple_urls
  simp [h1]

/-- Witness for C5: the spec's scenario of a single URL answering
HTTP 404 — no page is produced, and the batch behaves as if the URL were
absent. -/
theorem C5_witness :
    scrape_url alwaysEnglish fetch404 "https://example.org/a" = none
      ∧ scrape_multiple_urls alwaysEnglish fetch404 ["https://example.org/a"]
          = scrape_multiple_urls alwaysEnglish fetch404 [] :=
  C5_per_url_failure_isolated alwaysEnglish fetch404 "https://example.org/a" [] []
    (Or.inr (Or.inr ⟨404, .elem "[document]" [] [], rfl, by decide⟩))

/-! ## Deduplication lemmas -/

lemma allEnglish_cons (p : Page) (l : List Page) :
    allEnglish (p :: l) = p.english_text ++ allEnglish l := rfl

lemma allKhmer_cons (p : Page) (l : List Page) :
    allKhmer (p :: l) = p.khmer_text ++ allKhmer l := rfl

lemma dedupTexts_sublist (ts : List String) :
    ∀ seen, (dedupTexts seen ts).1.Sublist ts := by
  induction ts with
  | nil => intro seen; simp [dedupTexts]
  | cons t ts ih =>
    intro seen
    simp only [dedupTexts]
    by_cases h : t ∈ seen
    · simp only [h, if_true]
      exact (ih seen).cons t
    · simp only [h, if_false]
      exact (ih (t :: seen)).cons₂ t

lemma dedupTexts_not_mem_seen (ts : List String) :
    ∀ seen x, x ∈ (dedupTexts seen ts).1 → x ∉ seen := by
  induction ts with
  | nil => intro seen x hx; simp [dedupTexts] at hx
  | cons t ts ih =>
    intro seen x hx
    simp only [dedupTexts] at hx
    by_cases h : t ∈ seen
    · simp only [h, if_true] at hx
      exact ih seen x hx
    · simp only [h, if_false] at hx
      rcases List.mem_cons.mp hx with rfl | hx
      · exact h
      · intro hs
        exact ih (t :: seen) x hx (List.mem_cons_of_mem t hs)

lemma dedupTexts_nodup (ts : List String) :
    ∀ seen, (dedupTexts seen ts).1.Nodup := by
  induction ts with
  | nil => intro seen; simp [dedupTexts]
  | cons t ts ih =>
    intro seen
    simp only [dedupTexts]
    by_cases h : t ∈ seen
    · simp only [h, if_true]
      exact ih seen
    · simp only [h, if_false]
      refine List.nodup_cons.mpr ⟨fun hm => ?_, ih (t :: seen)⟩
      exact dedupTexts_not_mem_seen ts (t :: seen) t hm (List.mem_cons_self t seen)

lemma dedupTexts_seen_iff (ts : List String) :
    ∀ seen x, x ∈ (dedupTexts seen ts).2 ↔ x ∈ ts ∨ x ∈ seen := by
  induction ts with
  | nil => intro seen x; simp [dedupTexts]
  | cons t ts ih =>
    intro seen x
    simp only [dedupTexts]
    by_cases h : t ∈ seen
    · simp only [h, if_true]
      rw [ih seen x]
      constructor
      · rintro (h1 | h1)
        · exact Or.inl (List.mem_cons_of_mem t h1)
        · exact Or.inr h1
      · rintro (h1 | h1)
        · rcases List.mem_cons.mp h1 with rfl | h1
          · exact Or.inr h
          · exact Or.inl h1
        · exact Or.inr h1
    · simp only [h, if_false]
      rw [ih (t :: seen) x]
      constructor
      · rintro (h1 | h1)
        · exact Or.inl (List.mem_cons_of_mem t h1)
        · rcases List.mem_cons.mp h1 with rfl | h1
          · exact Or.inl (List.mem_cons_self _ _)
          · exact Or.inr h1
      · rintro (h1 | h1)
        · rcases List.mem_cons.mp h1 with rfl | h1
          · exact Or.inr (List.mem_cons_self _ _)
          · exact Or.inl h1
        · exact Or.inr (List.mem_cons_of_mem t h1)

/-- Full invariant of the page loop of `remove_global_duplicates`:
emitted texts avoid the incoming seen sets and are globally duplicate
free, and every emitted page is a kept page of some input page. -/
lemma removeGo_spec (l : List Page) : ∀ seenEn seenKm,
    (∀ x ∈ allEnglish (removeGlobalDuplicatesGo seenEn seenKm l), x ∉ seenEn)
    ∧ (∀ x ∈ allKhmer (removeGlobalDuplicatesGo seenEn seenKm l), x ∉ seenKm)
    ∧ (allEnglish (removeGlobalDuplicatesGo seenEn seenKm l)).Nodup
    ∧ (allKhmer (removeGlobalDuplicatesGo seenEn seenKm l)).Nodup
    ∧ ∀ p ∈ removeGlobalDuplicatesGo seenEn seenKm l,
        (p.english_text = [] → p.khmer_text ≠ [])
        ∧ ∃ q ∈ l, p.url = q.url ∧ p.status = q.status
            ∧ p.english_text.Sublist q.english_text
            ∧ p.khmer_text.Sublist q.khmer_text := by
  induction l with
  | nil =>
    intro seenEn seenKm
    refine ⟨?_, ?_, ?_, ?_, ?_⟩ <;>
      simp [removeGlobalDuplicatesGo, allEnglish, allKhmer]
  | cons item rest ih =>
    intro seenEn seenKm
    obtain ⟨ihEn, ihKm, ihEnN, ihKmN, ihPages⟩ :=
      ih (dedupTexts seenEn item.english_text).2 (dedupTexts seenKm item.khmer_text).2
    have hEnSeen : ∀ x ∈ allEnglish
        (removeGlobalDuplicatesGo (dedupTexts seenEn item.english_text).2
          (dedupTexts seenKm item.khmer_text).2 rest), x ∉ seenEn := by
      intro x hx hs
      exact ihEn x hx ((dedupTexts_seen_iff _ _ _).mpr (Or.inr hs))
    have hKmSeen : ∀ x ∈ allKhmer
        (removeGlobalDuplicatesGo (dedupTexts seenEn item.english_text).2
          (dedupTexts seenKm item.khmer_text).2 rest), x ∉ seenKm := by
      intro x hx hs
      exact ihKm x hx ((dedupTexts_seen_iff _ _ _).mpr (Or.inr hs))
    simp only [removeGlobalDuplicatesGo]
    by_cases hkeep : (!(dedupTexts seenEn item.english_text).1.isEmpty
        || !(dedupTexts seenKm item.khmer_text).1.isEmpty) = true
    · simp only [hkeep, if_true]
      refine ⟨?_, ?_, ?_, ?_, ?_⟩
      · intro x hx
        rw [allEnglish_cons] at hx
        rcases List.mem_append.mp hx with hx | hx
        · exact dedupTexts_not_mem_seen _ _ _ hx
        · exact hEnSeen x hx
      · intro x hx
        rw [allKhmer_cons] at hx
        rcases List.mem_append.mp hx with hx | hx
        · exact dedupTexts_not_mem_seen _ _ _ hx
        · exact hKmSeen x hx
      · rw [allEnglish_cons]
        refine List.nodup_append.mpr ⟨dedupTexts_nodup _ _, ihEnN, ?_⟩
        intro x hx hx2
        have hmem : x ∈ (dedupTexts seenEn item.english_text).2 :=
          (dedupTexts_seen_iff _ _ _).mpr
            (Or.inl ((dedupTexts_sublist _ _).subset hx))
        exact ihEn x hx2 hmem
      · rw [allKhmer_cons]
        refine List.nodup_append.mpr ⟨dedupTexts_nodup _ _, ihKmN, ?_⟩
        intro x hx hx2
        have hmem : x ∈ (dedupTexts seenKm item.khmer_text).2 :=
          (dedupTexts_seen_iff _ _ _).mpr
            (Or.inl ((dedupTexts_sublist _ _).subset hx))
        exact ihKm x hx2 hmem
      · intro p hp
        rcases List.mem_cons.mp hp with rfl | hp
        · refine ⟨?_, item, List.mem_cons_self _ _, rfl, rfl,
            dedupTexts_sublist _ _, dedupTexts_sublist _ _⟩
          intro hEnNil hKmNil
          rw [Bool.or_eq_true, Bool.not_eq_true', Bool.not_eq_true'] at hkeep
          rcases hkeep with hkeep | hkeep
          · rw [List.isEmpty_eq_false] at hkeep
            exact hkeep hEnNil
          · rw [List.isEmpty_eq_false] at hkeep
            exact hkeep hKmNil
        · obtain ⟨hne, q, hq, h1, h2, h3, h4⟩ := ihPages p hp
          exact ⟨hne, q, List.mem_cons_of_mem _ hq, h1, h2, h3, h4⟩
    · simp only [hkeep, if_false]
      refine ⟨hEnSeen, hKmSeen, ihEnN, ihKmN, ?_⟩
      intro p hp
      obtain ⟨hne, q, hq, h1, h2, h3, h4⟩ := ihPages p hp
      exact ⟨hne, q, List.mem_cons_of_mem _ hq, h1, h2, h3, h4⟩

/-- C1: after `remove_global_duplicates` no text occurs twice across all
`english_text` lists combined, none twice across all `khmer_text` lists
combined, each kept page's lists are in-order sublists of that page's
original lists (first occurrences keep their relative order), and a page
whose two kept lists are both empty is dropped. -/
theorem C1_global_dedup_invariant (results : List Page) :
    (allEnglish (remove_global_duplicates results)).Nodup
    ∧ (allKhmer (remove_global_duplicates results)).Nodup
    ∧ ∀ p ∈ remove_global_duplicates results,
        (p.english_text = [] → p.khmer_text ≠ [])
        ∧ ∃ q ∈ results, p.english_text.Sublist q.english_text
            ∧ p.khmer_text.Sublist q.khmer_text := by
  obtain ⟨-, -, hEnN, hKmN, hPages⟩ := removeGo_spec results [] []
  refine ⟨hEnN, hKmN, ?_⟩
  intro p hp
  obtain ⟨hne, q, hq, -, -, h3, h4⟩ := hPages p hp
  exact ⟨hne, q, hq, h3, h4⟩

/-- Witness for C1 on three concrete overlapping pages (the second page
keeps only its unique text "cherry tart"). -/
theorem C1_global_dedup_invariant_witness :
    (allEnglish (remove_global_duplicates demoPages)).Nodup
    ∧ (demoOutPage.english_text = [] → demoOutPage.khmer_text ≠ [])
    ∧ ∃ q ∈ demoPages, demoOutPage.english_text.Sublist q.english_text
        ∧ demoOutPage.khmer_text.Sublist q.khmer_text := by
  obtain ⟨h1, -, h3⟩ := C1_global_dedup_invariant demoPages
  obtain ⟨hne, hex⟩ := h3 demoOutPage (by decide)
  exact ⟨h1, hne, hex⟩

/-- C10: aggregation only filters the text lists — every output page
keeps the `url` and `status` of the input page it came from, its text
lists being in-order sublists of that page's lists. -/
theorem C10_url_status_frame (results : List Page) :
    ∀ p ∈ remove_global_duplicates results,
      ∃ q ∈ results, p.url = q.url ∧ p.status = q.status
        ∧ p.english_text.Sublist q.english_text
        ∧ p.khmer_text.Sublist q.khmer_text := by
  intro p hp
  obtain ⟨-, -, -, -, hPages⟩ := removeGo_spec results [] []
  obtain ⟨-, q, hq, h1, h2, h3, h4⟩ := hPages p hp
  exact ⟨q, hq, h1, h2, h3, h4⟩

/-- Witness for C10 at the concrete second output page of `demoPages`. -/
theorem C10_url_status_frame_witness :
    ∃ q ∈ demoPages, demoOutPage.url = q.url ∧ demoOutPage.status = q.status
      ∧ demoOutPage.english_text.Sublist q.english_text
      ∧ demoOutPage.khmer_text.Sublist q.khmer_text :=
  C10_url_status_frame demoPages demoOutPage (by decide)

/-! ## CSV flattening lemmas -/

lemma emitTexts_length (b : Bool) (ts : List String) :
    ∀ rid, (emitTexts b rid ts).length = ts.length := by
  induction ts with
  | nil => intro rid; rfl
  | cons t ts ih =>
    intro rid
    simp [emitTexts, ih]

lemma emitTexts_map_id (b : Bool) (ts : List String) :
    ∀ rid, (emitTexts b rid ts).map CsvRow.id = List.range' rid ts.length := by
  induction ts with
  | nil => intro rid; rfl
  | cons t ts ih =>
    intro rid
    rw [List.length_cons, List.range'_succ]
    cases b <;> simp [emitTexts, ih]

lemma emitTexts_map_pair (b : Bool) (ts : List String) :
    ∀ rid, (emitTexts b rid ts).map (fun r => (r.english, r.khmer))
      = ts.map (fun t => if b then (t, "") else ("", t)) := by
  induction ts with
  | nil => intro rid; rfl
  | cons t ts ih =>
    intro rid
    cases b <;> simp [emitTexts, ih]

lemma csvRowsGo_map_id (data : List Page) :
    ∀ rid, (csvRowsGo rid data).map CsvRow.id
      = List.range' rid (csvRowsGo rid data).length := by
  induction data with
  | nil => intro rid; rfl
  | cons item rest ih =>
    intro rid
    simp only [csvRowsGo, List.map_append, List.length_append,
      emitTexts_map_id, emitTexts_length, ih]
    rw [List.append_assoc, List.range'_append_1, List.range'_append_1]
    congr 1
    omega

lemma csvRowsGo_map_pair (data : List Page) :
    ∀ rid, (csvRowsGo rid data).map (fun r => (r.english, r.khmer))
      = (data.map fun item =>
          item.english_text.map (fun t => (t, ""))
            ++ item.khmer_text.map (fun t => ("", t))).flatten := by
  induction data with
  | nil => intro rid; rfl
  | cons item rest ih =>
    intro rid
    simp [csvRowsGo, emitTexts_map_pair, ih]

/-- C9: the rows `save_to_csv` emits carry sequential IDs `1, 2, …`; their
text pairs are, page by page, every English text (with empty Khmer field)
followed by every Khmer text (with empty English field); and — the input
texts being nonempty, as every stored block is — each row populates
exactly one of the two text fields. -/
theorem C9_csv_rows (data : List Page)
    (hne : ∀ item ∈ data, (∀ t ∈ item.english_text, t ≠ "")
      ∧ ∀ t ∈ item.khmer_text, t ≠ "") :
    ((save_to_csv_rows data).map CsvRow.id
        = List.range' 1 (save_to_csv_rows data).length)
    ∧ ((save_to_csv_rows data).map (fun r => (r.english, r.khmer))
        = (data.map fun item =>
            item.english_text.map (fun t => (t, ""))
              ++ item.khmer_text.map (fun t => ("", t))).flatten)
    ∧ ∀ r ∈ save_to_csv_rows data,
        (r.english ≠ "" ∧ r.khmer = "") ∨ (r.english = "" ∧ r.khmer ≠ "") := by
  refine ⟨csvRowsGo_map_id data 1, csvRowsGo_map_pair data 1, ?_⟩
  intro r hr
  have hpair : (r.english, r.khmer)
      ∈ (data.map fun item =>
          item.english_text.map (fun t => (t, ""))
            ++ item.khmer_text.map (fun t => ("", t))).flatten := by
    rw [← csvRowsGo_map_pair data 1]
    exact List.mem_map_of_mem _ hr
  rw [List.mem_flatten] at hpair
  obtain ⟨chunk, hchunk, hmem⟩ := hpair
  rw [List.mem_map] at hchunk
  obtain ⟨item, hitem, rfl⟩ := hchunk
  rcases List.mem_append.mp hmem with hmemEn | hmemKm
  · rw [List.mem_map] at hmemEn
    obtain ⟨t, ht, hteq⟩ := hmemEn
    have h1 : r.english = t := congrArg Prod.fst hteq.symm
    have h2 : r.khmer = "" := congrArg Prod.snd hteq.symm
    exact Or.inl ⟨h1 ▸ (hne item hitem).1 t ht, h2⟩
  · rw [List.mem_map] at hmemKm
    obtain ⟨t, ht, hteq⟩ := hmemKm
    have h1 : r.english = "" := congrArg Prod.fst hteq.symm
    have h2 : r.khmer = t := congrArg Prod.snd hteq.symm
    exact Or.inr ⟨h1, h2 ▸ (hne item hitem).2 t ht⟩

/-- Witness for C9 on two concrete pages. -/
theorem C9_csv_rows_witness :
    ((save_to_csv_rows demoPages).map CsvRow.id
        = List.range' 1 (save_to_csv_rows demoPages).length)
    ∧ ∀ r ∈ save_to_csv_rows demoPages,
        (r.english ≠ "" ∧ r.khmer = "") ∨ (r.english = "" ∧ r.khmer ≠ "") := by
  obtain ⟨h1, -, h3⟩ := C9_csv_rows demoPages (by decide)
  exact ⟨h1, h3⟩

/-! ## Table extraction lemmas -/

lemma foldl_max_init_le (l : List Nat) : ∀ init, init ≤ l.foldl max init := by
  induction l with
  | nil => intro init; exact Nat.le_refl init
  | cons x xs ih =>
    intro init
    exact le_trans (le_max_left init x) (ih (max init x))

lemma mem_le_foldl_max (l : List Nat) : ∀ init a, a ∈ l → a ≤ l.foldl max init := by
  induction l with
  | nil => intro init a ha; simp at ha
  | cons x xs ih =>
    intro init a ha
    rcases List.mem_cons.mp ha with rfl | ha
    · exact le_trans (le_max_right init a) (foldl_max_init_le xs (max init a))
    · exact ih (max init x) a ha

/-- A successfully constructed DataFrame is rectangular: every (padded)
row is as long as the column list. -/
lemma mkDataFrame_ok (rows : List (List String)) (cols : List String)
    (df : DataFrame) (h : mkDataFrame rows cols = .ok df) :
    ∀ row ∈ df.rows, row.length = df.columns.length := by
  simp only [mkDataFrame] at h
  split at h
  · exact absurd h (by simp)
  · rename_i hw
    rw [not_not] at hw
    injection h with h
    subst h
    intro row hrow
    simp only [List.mem_map] at hrow
    obtain ⟨r, hr, rfl⟩ := hrow
    have hle : r.length ≤ (rows.map List.length).foldl max 0 :=
      mem_le_foldl_max _ 0 r.length (List.mem_map_of_mem List.length hr)
    simp only [List.length_append, List.length_map, List.length_replicate]
    omega

/-- Every record emitted by the per-table loop has a rectangular
DataFrame. -/
lemma buildTablesGo_rect (tables : List (Nat × Node)) :
    ∀ allPre idx recs, buildTablesGo allPre idx tables = .ok recs →
      ∀ rec ∈ recs, ∀ row ∈ rec.data.rows, row.length = rec.data.columns.length := by
  induction tables with
  | nil =>
    intro allPre idx recs h
    injection h with h
    subst h
    intro rec hrec
    simp at hrec
  | cons pt rest ih =>
    intro allPre idx recs h
    obtain ⟨pos, table⟩ := pt
    simp only [buildTablesGo] at h
    split at h
    · exact ih allPre (idx + 1) recs h
    · split at h
      · exact absurd h (by simp)
      · rename_i df hdf
        split at h
        · exact absurd h (by simp)
        · rename_i l hl
          injection h with h
          subst h
          intro rec hrec
          rcases List.mem_cons.mp hrec with rfl | hrec
          · exact mkDataFrame_ok _ _ _ hdf
          · exact ih _ _ _ hl rec hrec

/-- A successful extraction's records carry exactly the DataFrames of the
per-table loop: the first-table fix-up only swaps title and detail. -/
lemma extract_tables_ok (soup : Node) (recs : List TableRecord)
    (h : extract_tables_to_dataframes soup = .ok recs) :
    ∃ recs0, buildTablesGo ((descElems soup).enum) 0
        (((descElems soup).enum).filter fun p => p.2.tagName = "table") = .ok recs0
      ∧ recs.map TableRecord.data = recs0.map TableRecord.data := by
  simp only [extract_tables_to_dataframes] at h
  cases hb : buildTablesGo ((descElems soup).enum) 0
      (((descElems soup).enum).filter fun p => p.2.tagName = "table") with
  | error e =>
    rw [hb] at h
    exact absurd h (by simp)
  | ok l =>
    rw [hb] at h
    cases l with
    | nil =>
      injection h with h
      subst h
      exact ⟨[], rfl, rfl⟩
    | cons t0 ts =>
      injection h with h
      subst h
      exact ⟨t0 :: ts, rfl, rfl⟩

/-- C8 counterexample: a parsed table with one header cell and a two-cell
data row.  The claim says table extraction returns normally for every
parsed document, but `pd.DataFrame(rows, columns=headers)` raises
`ValueError` because the widest row is wider than the header list. -/
theorem C8_counterexample :
    extract_tables_to_dataframes soupC8 = .error "ValueError: columns mismatch" := rfl

/-- C8 amended: whenever table extraction returns normally, every row of
every produced DataFrame has exactly as many cells as the header list
(pandas pads short rows with null cells); and a header-less table never
trips this, since its synthesized "Column i+1" headers are sized to the
widest row.  Extraction raises instead of returning when a table has
header cells and a data row wider than them. -/
theorem C8_rows_match_headers :
    (∀ (soup : Node) (recs : List TableRecord),
        extract_tables_to_dataframes soup = .ok recs →
        ∀ rec ∈ recs, ∀ row ∈ rec.data.rows, row.length = rec.data.columns.length)
    ∧ ∀ rows : List (List String), ∃ df,
        mkDataFrame rows ((List.range ((rows.map List.length).foldl max 0)).map
          fun i => "Column " ++ toString (i + 1)) = .ok df := by
  constructor
  · intro soup recs h rec hrec
    obtain ⟨recs0, hb, hdata⟩ := extract_tables_ok soup recs h
    have hdm : rec.data ∈ recs0.map TableRecord.data :=
      hdata ▸ List.mem_map_of_mem TableRecord.data hrec
    obtain ⟨rec0, hrec0, hdeq⟩ := List.mem_map.mp hdm
    intro row hrow
    rw [← hdeq] at hrow ⊢
    exact buildTablesGo_rect _ _ _ _ hb rec0 hrec0 row hrow
  · intro rows
    simp only [mkDataFrame, List.length_map, List.length_range]
    rw [if_neg (by simp)]
    exact ⟨_, rfl⟩

/-- Witness for C8 amended at the concrete course table of `soupT`. -/
theorem C8_rows_match_headers_witness :
    ([some "Math101", some "3"] : List (Option String)).length
      = recT.data.columns.length :=
  C8_rows_match_headers.1 soupT [recT] rfl recT (by decide)
    [some "Math101", some "3"] (by decide)

end Scraper
